import Mathlib

/-!
Verification development for the hoisaai decision-tree classification module
(hoisaai/layer_1/model/supervised/classification/decision_tree.py, together
with its test file).

Tensor computations are embedded per scalar cell: the batched array code of
the source broadcasts the very same scalar computation over every
(batch, target, candidate, ...) cell, so each array operation is modelled
by the scalar function it applies cell-wise, with the reduced axis carried
as an explicit list. Data and class values are modelled over the integers,
probabilities over the rationals, entropy scores over the reals, and Option
models an IEEE NaN wherever the source relies on NaN propagation or on
nan_to_num sanitization.

The generic induction engine (DecisionTree.fit, pre_predict,
bagging_preparation, random_forest_preparation), the tensor runtime and the
error taxonomy live outside the provided sources: only the classifier module
and a test of the engine are given. Those parts are modelled from the spec;
each such definition carries a doc comment saying so.
-/

namespace Hoisaai

/-- Modelled from the spec: Tensor.unique of the tensor runtime (absent from
the sources) returns the sorted distinct values of a tensor.  It is embedded
as insertion sort followed by removal of duplicates. -/
def uniqueSorted (l : List ℤ) : List ℤ :=
  (List.insertionSort (fun a b => a ≤ b) l).dedup

/-- The pre_fit hook of DecisionTreeClassifier: if self.unique_y is None it
is set to the sorted distinct target values, otherwise nothing happens.
The unique_y attribute is the Option argument, the result is its new value. -/
def pre_fit (unique_y : Option (List ℤ)) (in_sample_y : List ℤ) : Option (List ℤ) :=
  match unique_y with
  | none => some (uniqueSorted in_sample_y)
  | some u => some u

/-- Number of observations assigned to branch b: the source computes it as
branch.count_nonzero over the observation axis of the one-hot comparison
with arange(number_of_branches). -/
def branch_count (branches : List ℕ) (b : ℕ) : ℕ :=
  branches.countP (fun v => decide (v = b))

/-- The category_count tensor of information_gain_entropy exactly as the
source computes it: the branch indicator (branches == b) is multiplied with
the raw target value and the product is compared with the class value, so an
observation outside branch b still matches any class whose value is 0. -/
def category_count (in_sample_y : List ℤ) (branches : List ℕ) (b : ℕ) (c : ℤ) : ℕ :=
  (branches.zip in_sample_y).countP
    (fun p => decide ((if p.1 = b then (1 : ℤ) else 0) * p.2 = c))

/-- The count of observations that lie in branch b and carry class value c:
this is the count(class, branch) of the specified information-gain formula. -/
def category_count_intended (in_sample_y : List ℤ) (branches : List ℕ) (b : ℕ) (c : ℤ) : ℕ :=
  (branches.zip in_sample_y).countP (fun p => decide (p.1 = b ∧ p.2 = c))

/-- The sanitized probability.log2() * probability cell of
information_gain_entropy.  In the floating-point source the product is NaN
when the branch is empty (0/0 or a positive count over an empty branch gives
NaN or +inf) and NaN when the category count is 0 (log2(0) * 0); nan_to_num
maps all of these to 0, which the embedding states by the explicit guard. -/
noncomputable def sanitized_plogp (in_sample_y : List ℤ) (branches : List ℕ) (b : ℕ) (c : ℤ) : ℝ :=
  if category_count in_sample_y branches b c = 0 ∨ branch_count branches b = 0 then 0
  else
    Real.logb 2 ((category_count in_sample_y branches b c : ℝ) / (branch_count branches b : ℝ)) *
      ((category_count in_sample_y branches b c : ℝ) / (branch_count branches b : ℝ))

/-- information_gain_entropy of DecisionTreeClassifier, per candidate split
per target: 1 + sum over branches and classes of the sanitized
log2(p) * p cell multiplied by category_count / total observations.  The
class axis is the fitted unique_y list, the branch axis is
arange(number_of_branches). -/
noncomputable def information_gain_entropy
    (in_sample_y : List ℤ) (branches : List ℕ) (number_of_branches : ℕ) (unique_y : List ℤ) : ℝ :=
  1 + ((List.range number_of_branches).map (fun b =>
    (unique_y.map (fun c =>
      sanitized_plogp in_sample_y branches b c *
        ((category_count in_sample_y branches b c : ℝ) / (in_sample_y.length : ℝ)))).sum)).sum

/-- The gain formula exactly as the claim states it: 1 + sum over branches
and classes of w * log2(p) * p with p = count(class, branch)/count(branch)
and w = count(class, branch)/total observations, every 0 * log2(0) cell
(NaN or infinite) sanitized to 0 before summation.  Used only to compare the
source function against the specified formula. -/
noncomputable def claimed_gain_formula
    (in_sample_y : List ℤ) (branches : List ℕ) (number_of_branches : ℕ) (unique_y : List ℤ) : ℝ :=
  1 + ((List.range number_of_branches).map (fun b =>
    (unique_y.map (fun c =>
      if category_count_intended in_sample_y branches b c = 0 then 0
      else
        ((category_count_intended in_sample_y branches b c : ℝ) / (in_sample_y.length : ℝ)) *
          Real.logb 2 ((category_count_intended in_sample_y branches b c : ℝ) /
            (branch_count branches b : ℝ)) *
          ((category_count_intended in_sample_y branches b c : ℝ) /
            (branch_count branches b : ℝ)))).sum)).sum

/-- The masked target value used by post_fit: the source divides the one-hot
leaf indicator by itself, producing 1 on the reached leaf and NaN (0/0)
elsewhere, and multiplies it with the target value.  none models the NaN,
and a comparison of NaN with any value is false. -/
def masked_target (leaf_code l : ℕ) (yv : ℤ) : Option ℤ :=
  if leaf_code = l then some yv else none

/-- One cell of the count table built by post_fit: the number of training
rows whose leaf code is l and whose target value equals the class value c.
Rows whose masked value is NaN (outside leaf l) never match. -/
def post_fit_count (in_sample_y : List ℤ) (leaf : List ℕ) (c : ℤ) (l : ℕ) : ℕ :=
  (leaf.zip in_sample_y).countP (fun p => decide (masked_target p.1 l p.2 = some c))

/-- Normalization of a gathered count row in predict_with_probability:
count / count.sum over the class axis followed by nan_to_num, which turns
the NaN entries of an all-zero row (0/0) into 0. -/
def normalize_row (cnt : List ℕ) : List ℚ :=
  cnt.map (fun k : ℕ => if cnt.sum = 0 then 0 else (k : ℚ) / (cnt.sum : ℚ))

/-- Column j of a dataset (missing entries read as 0, matching an index
gather on a rectangular tensor). -/
def column (data : List (List ℤ)) (j : ℕ) : List ℤ :=
  data.map (fun r => r.getD j 0)

/-- The single target column of a dataset with number_of_target = 1.  The
engine is embedded for one batch member and one target column; the batched
source broadcasts this computation over every (batch, target) cell. -/
def target_column (data : List (List ℤ)) : List ℤ :=
  column data 0

/-- The feature part of a row: everything after the target columns. -/
def feature_row (number_of_target : ℕ) (r : List ℤ) : List ℤ :=
  r.drop number_of_target

/-- Modelled from the spec: the candidate thresholds of one feature column
are the unfiltered sorted observation values of that column, all
Observations - 1 of them, at every level. -/
def thresholds (data : List (List ℤ)) (j : ℕ) : List ℤ :=
  (List.insertionSort (fun a b => a ≤ b) (column data j)).take (data.length - 1)

/-- Modelled from the spec: the candidate list of one level, the
(feature, threshold) pairs enumerated with the threshold rank outermost so
that the stable tie-break selects the first feature at the smallest
threshold rank.  Feature index j addresses dataset column
number_of_target + j. -/
def candidate_splits (data : List (List ℤ)) (number_of_target : ℕ) : List (ℕ × ℤ) :=
  (List.range (data.length - 1)).flatMap (fun rank =>
    (List.range ((data.getD 0 []).length - number_of_target)).map
      (fun j => (j, (thresholds data (number_of_target + j)).getD rank 0)))

/-- Modelled from the spec: the binary branch assignment of one observation
for one candidate, 1 when the feature value exceeds the threshold and 0
otherwise. -/
def branch_of (x : List ℤ) (cand : ℕ × ℤ) : ℕ :=
  if cand.2 < x.getD cand.1 0 then 1 else 0

/-- Modelled from the spec: pre_predict replays the stored split of every
level on a feature row and folds the branch choices into the leaf code,
code = code * branch_arity + choice with branch arity 2. -/
def pre_predict (splits : List (ℕ × ℤ)) (x : List ℤ) : ℕ :=
  splits.foldl (fun code s => 2 * code + branch_of x s) 0

/-- Modelled from the spec: the branch assignment tensor of one candidate,
one branch choice per observation. -/
def branch_assignment (data : List (List ℤ)) (number_of_target : ℕ) (cand : ℕ × ℤ) : List ℕ :=
  data.map (fun r => branch_of (feature_row number_of_target r) cand)

/-- Modelled from the spec: stable argmax over the candidate scores, the
index of the first score attaining the maximum.  Real-valued scores make
this selection non-executable; no verified claim depends on evaluating it. -/
noncomputable def pick_best (l : List ℝ) : ℕ :=
  l.findIdx (fun x => decide (l.foldr max (l.headD 0) ≤ x))

/-- Modelled from the spec: the candidate chosen at one level, the stable
argmax of the entropy information gain over all candidates.  Because the
spec evaluates candidates against the unfiltered observations at every
level, the scores, and hence the winning candidate, are the same at every
level. -/
noncomputable def best_candidate (unique_y : List ℤ) (data : List (List ℤ)) : ℕ × ℤ :=
  (candidate_splits data 1).getD
    (pick_best ((candidate_splits data 1).map (fun cand =>
      information_gain_entropy (target_column data) (branch_assignment data 1 cand) 2 unique_y)))
    (0, 0)

/-- A fitted tree of the classification layer: the split record (one
(feature, threshold) per level), the frozen unique_y class list, and the
count table of post_fit, indexed by class value and leaf code. -/
structure FittedTree where
  splits : List (ℕ × ℤ)
  unique_y : List ℤ
  count : ℤ → ℕ → ℕ

/-- Modelled from the spec: the level-synchronous induction engine for one
batch member and one target column, specialised to the classifier hooks.
Every level selects the stable argmax candidate, the training rows replay
the split record into their leaf codes, and post_fit tallies the count
table from the frozen unique_y. -/
noncomputable def fit_tree (unique_y : List ℤ) (depth : ℕ) (data : List (List ℤ)) : FittedTree :=
  let spl := (List.range depth).map (fun _ => best_candidate unique_y data)
  let leafs := data.map (fun r => pre_predict spl (feature_row 1 r))
  { splits := spl
    unique_y := unique_y
    count := fun c l => post_fit_count (target_column data) leafs c l }

/-- DecisionTreeClassifier.fit of a fresh model: pre_fit runs on the empty
cached state and freezes unique_y, then the engine fits the tree. -/
noncomputable def classifier_fit (data : List (List ℤ)) (depth : ℕ) : FittedTree :=
  fit_tree ((pre_fit none (target_column data)).getD []) depth data

/-- predict_with_probability of DecisionTreeClassifier for one sample row:
the count table row of the reached leaf is gathered by the replayed leaf
code and normalized across the class axis, NaN sanitized to 0. -/
def predict_with_probability (m : FittedTree) (x : List ℤ) : List ℚ :=
  normalize_row (m.unique_y.map (fun c => m.count c (pre_predict m.splits x)))

/-- Modelled from the spec: nanmean of the tensor runtime, the mean of the
non-NaN members of a list (none models NaN); an all-NaN list yields NaN. -/
def nanmean (l : List (Option ℚ)) : Option ℚ :=
  if (l.filterMap id).length = 0 then none
  else some ((l.filterMap id).sum / ((l.filterMap id).length : ℚ))

/-- A fitted ensemble: the shared frozen unique_y (pre_fit runs once over
the whole batched target tensor) and one fitted tree per ensemble member. -/
structure FittedEnsemble where
  unique_y : List ℤ
  trees : List FittedTree

/-- The batched fit of an ensemble: unique_y is the sorted distinct value
list over the targets of all subsets at once, and every subset grows its
own tree against that shared class list. -/
noncomputable def ensemble_fit (subsets : List (List (List ℤ))) (depth : ℕ) : FittedEnsemble :=
  { unique_y := uniqueSorted (subsets.flatMap target_column)
    trees := subsets.map (fit_tree (uniqueSorted (subsets.flatMap target_column)) depth) }

/-- BaggingClassifier.predict_with_probability and
RandomForestClassifier.predict_with_probability for one sample row: the
per-member probabilities of the base classifier are aggregated with nanmean
across the leading ensemble axis, which the result no longer carries. -/
def ensemble_predict (E : FittedEnsemble) (x : List ℤ) : List (Option ℚ) :=
  (List.range E.unique_y.length).map (fun c =>
    nanmean (E.trees.map (fun t => some ((predict_with_probability t x).getD c 0))))

/-- Modelled from the spec: bagging_preparation draws subset_size row
indices with replacement for each of number_of_subset subsets from one
deterministically advanced seeded stream, and gathers the rows in draw
order.  The pseudo-random generator itself is part of the absent tensor
runtime, so it enters as the stream of drawn indices. -/
def bagging_preparation (stream : ℕ → ℕ) (data : List (List ℤ))
    (number_of_subset subset_size : ℕ) : List (List (List ℤ)) :=
  (List.range number_of_subset).map (fun k =>
    (List.range subset_size).map (fun d => data.getD (stream (k * subset_size + d)) []))

/-- Modelled from the spec: the row-index draw stream of the seeded
generator for seed 0 on a 3-row dataset, pinned by the concrete scenario of
the spec (subsets (1,1), (0,2), (0,2)). -/
def seed0_stream : ℕ → ℕ := fun n => [1, 1, 0, 2, 0, 2].getD n 0

/-- The error taxonomy of the spec: ShapeError for dataset and sample shape
violations, ConfigError for invalid construction parameters. -/
inductive FitError where
  | shapeError : FitError
  | configError : FitError
deriving DecidableEq

/-- Modelled from the spec: random_forest_preparation bootstraps rows like
bagging_preparation and additionally draws feature columns per subset; the
output columns are all target columns followed by the chosen feature
columns, and a ConfigError is raised when more features are requested than
exist. -/
def random_forest_preparation (row_stream : ℕ → ℕ) (feature_choice : ℕ → List ℕ)
    (data : List (List ℤ))
    (number_of_target number_of_chosen_feature number_of_subset subset_size : ℕ) :
    Except FitError (List (List (List ℤ))) :=
  if (data.getD 0 []).length - number_of_target < number_of_chosen_feature then
    .error .configError
  else
    .ok ((List.range number_of_subset).map (fun k =>
      (List.range subset_size).map (fun d =>
        ((List.range number_of_target).map
          (fun j => (data.getD (row_stream (k * subset_size + d)) []).getD j 0)) ++
          (((feature_choice k).take number_of_chosen_feature).map
            (fun j => (data.getD (row_stream (k * subset_size + d)) []).getD j 0)))))

/-- BaggingClassifier.fit: the base classifier fit is delegated to on the
bootstrap-prepared dataset, never on the raw dataset. -/
noncomputable def bagging_fit (stream : ℕ → ℕ) (data : List (List ℤ))
    (number_of_subset subset_size depth : ℕ) : FittedEnsemble :=
  ensemble_fit (bagging_preparation stream data number_of_subset subset_size) depth

/-- BaggingClassifier.predict_with_probability on a model fitted through
bagging_fit. -/
noncomputable def bagging_predict (stream : ℕ → ℕ) (data : List (List ℤ))
    (number_of_subset subset_size depth : ℕ) (x : List ℤ) : List (Option ℚ) :=
  ensemble_predict (bagging_fit stream data number_of_subset subset_size depth) x

/-- RandomForestClassifier.predict_with_probability on a model fitted on the
random-forest-prepared subsets. -/
noncomputable def random_forest_predict (row_stream : ℕ → ℕ) (feature_choice : ℕ → List ℕ)
    (data : List (List ℤ))
    (number_of_target number_of_chosen_feature number_of_subset subset_size depth : ℕ)
    (x : List ℤ) : List (Option ℚ) :=
  ensemble_predict
    (ensemble_fit
      ((random_forest_preparation row_stream feature_choice data number_of_target
        number_of_chosen_feature number_of_subset subset_size).toOption.getD [])
      depth) x

/-- Modelled from the spec: the validation performed by fit, raising
ShapeError for fewer than 2 observations or number_of_target at or beyond
the column count, and ConfigError for a negative depth; a call that passes
every check succeeds.  The spec states the shape checks before the depth
check, which fixes the outcome when several conditions are violated at
once. -/
def fit_check (observations columns number_of_target : ℕ) (depth : ℤ) : Except FitError Unit :=
  if observations < 2 then .error .shapeError
  else if columns ≤ number_of_target then .error .shapeError
  else if depth < 0 then .error .configError
  else .ok ()

/-- The 3 x 3 dataset of the reference scenarios, rows
(1,2,3), (4,5,6), (7,8,9) with one target column. -/
def sample_data : List (List ℤ) := [[1, 2, 3], [4, 5, 6], [7, 8, 9]]

theorem sum_map_add {α : Type} (l : List α) (f g : α → ℕ) :
    (l.map (fun a => f a + g a)).sum = (l.map f).sum + (l.map g).sum := by
  induction l with
  | nil => simp
  | cons a t ih => simp [ih]; omega

theorem sum_map_mem_indicator {β : Type} [DecidableEq β] (uY : List β) (hnd : uY.Nodup) (v : β) :
    (uY.map (fun c => if v = c then (1 : ℕ) else 0)).sum = if v ∈ uY then 1 else 0 := by
  induction uY with
  | nil => simp
  | cons c cs ih =>
    rcases List.nodup_cons.mp hnd with ⟨hc, hcs⟩
    by_cases hv : v = c
    · subst hv
      simp [ih hcs, hc]
    · simp [hv, ih hcs, List.mem_cons]

theorem countP_ext {α : Type} (l : List α) (p q : α → Bool) (h : ∀ a ∈ l, p a = q a) :
    l.countP p = l.countP q := by
  induction l with
  | nil => simp
  | cons a t ih =>
    rw [List.countP_cons, List.countP_cons, ih (fun b hb => h b (List.mem_cons_of_mem a hb)),
      h a (List.mem_cons_self a t)]

theorem countP_class_partition {α β : Type} [DecidableEq β] (uY : List β) (hnd : uY.Nodup)
    (L : List α) (q : α → Bool) (f : α → β) :
    (uY.map (fun c => L.countP (fun a => q a && decide (f a = c)))).sum =
      L.countP (fun a => q a && decide (f a ∈ uY)) := by
  induction L with
  | nil => simp
  | cons a t ih =>
    simp only [List.countP_cons]
    rw [sum_map_add uY (fun c => t.countP (fun b => q b && decide (f b = c)))
      (fun c => if (q a && decide (f a = c)) = true then 1 else 0), ih]
    congr 1
    cases hq : q a
    · simp
    · simpa using sum_map_mem_indicator uY hnd (f a)

theorem countP_zip_fst {α β : Type} (l1 : List α) (l2 : List β) (q : α → Bool)
    (h : l1.length = l2.length) :
    (l1.zip l2).countP (fun p => q p.1) = l1.countP q := by
  induction l1 generalizing l2 with
  | nil => simp
  | cons a t ih =>
    cases l2 with
    | nil => simp at h
    | cons b u =>
      simp only [List.zip_cons_cons, List.countP_cons]
      rw [ih u (by simpa using h)]

theorem countP_zip_snd {α β : Type} (l1 : List α) (l2 : List β) (q : β → Bool)
    (h : l1.length = l2.length) :
    (l1.zip l2).countP (fun p => q p.2) = l2.countP q := by
  induction l1 generalizing l2 with
  | nil => cases l2 with
    | nil => simp
    | cons b u => simp at h
  | cons a t ih =>
    cases l2 with
    | nil => simp at h
    | cons b u =>
      simp only [List.zip_cons_cons, List.countP_cons]
      rw [ih u (by simpa using h)]

theorem map_getD_range {α : Type} (l : List α) (d : α) :
    (List.range l.length).map (fun i => l.getD i d) = l := by
  induction l with
  | nil => simp
  | cons a t ih =>
    rw [List.length_cons, List.range_succ_eq_map, List.map_cons, List.map_map]
    simp only [Function.comp_def, List.getD_cons_zero, List.getD_cons_succ]
    rw [ih]

theorem nanmean_map_some (l : List ℚ) :
    nanmean (l.map some) = if l.length = 0 then none else some (l.sum / (l.length : ℚ)) := by
  simp [nanmean, List.filterMap_map]

theorem sum_map_cast_div (cnt : List ℕ) (t : ℚ) :
    (cnt.map (fun k : ℕ => (k : ℚ) / t)).sum = ((cnt.sum : ℕ) : ℚ) / t := by
  induction cnt with
  | nil => simp
  | cons a u ih =>
    rw [List.map_cons, List.sum_cons, ih, List.sum_cons]
    push_cast
    rw [add_div]

theorem uniqueSorted_sorted (y : List ℤ) : (uniqueSorted y).Sorted (fun a b => a ≤ b) :=
  List.Pairwise.sublist (List.dedup_sublist _) (List.sorted_insertionSort _ y)

theorem uniqueSorted_nodup (y : List ℤ) : (uniqueSorted y).Nodup :=
  List.nodup_dedup _

theorem mem_uniqueSorted (y : List ℤ) (v : ℤ) : v ∈ uniqueSorted y ↔ v ∈ y := by
  unfold uniqueSorted
  rw [List.mem_dedup]
  exact List.mem_insertionSort _

theorem post_fit_count_eq (y : List ℤ) (leaf : List ℕ) (c : ℤ) (l : ℕ) :
    post_fit_count y leaf c l =
      (leaf.zip y).countP (fun p => decide (p.1 = l) && decide (p.2 = c)) := by
  unfold post_fit_count
  apply countP_ext
  intro p _
  by_cases h1 : p.1 = l <;> by_cases h2 : p.2 = c <;> simp [masked_target, h1, h2]

theorem count_row_sum_eq (uY y : List ℤ) (leaf : List ℕ) (l : ℕ) (hnd : uY.Nodup) :
    (uY.map (fun c => post_fit_count y leaf c l)).sum =
      (leaf.zip y).countP (fun p => decide (p.1 = l) && decide (p.2 ∈ uY)) := by
  simp only [post_fit_count_eq]
  exact countP_class_partition uY hnd _ _ Prod.snd

theorem count_row_total (uY y : List ℤ) (leaf : List ℕ) (l : ℕ)
    (hnd : uY.Nodup) (hlen : leaf.length = y.length) (hmem : ∀ v ∈ y, v ∈ uY) :
    (uY.map (fun c => post_fit_count y leaf c l)).sum =
      leaf.countP (fun v => decide (v = l)) := by
  rw [count_row_sum_eq uY y leaf l hnd]
  rw [countP_ext ((leaf.zip y)) _ (fun p => decide (p.1 = l)) (fun p hp => by
    have h2 := (List.of_mem_zip hp).2
    simp [hmem _ h2])]
  exact countP_zip_fst leaf y (fun v => decide (v = l)) hlen

/-- C1: evaluation of information_gain_entropy at the failing input.  With
targets 0 and 1 routed to branches 0 and 1 and unique_y = [0, 1] (a plain
binary 0/1 labelling), the source returns 3 while the specified formula
yields 1: the source counts every observation outside a branch as a member
of class 0 of that branch, because the branch indicator is multiplied into
the raw target value without the NaN mask that post_fit uses. -/
theorem information_gain_entropy_zero_class_bug :
    information_gain_entropy [0, 1] [0, 1] 2 [0, 1] = 3 ∧
    claimed_gain_formula [0, 1] [0, 1] 2 [0, 1] = 1 := by
  have hr : List.range 2 = [0, 1] := by decide
  have l2 : Real.logb 2 2 = 1 := Real.logb_self_eq_one (by norm_num)
  have l1 : Real.logb 2 1 = 0 := Real.logb_one
  have c00 : category_count [0, 1] [0, 1] 0 0 = 2 := by decide
  have c01 : category_count [0, 1] [0, 1] 0 1 = 0 := by decide
  have c10 : category_count [0, 1] [0, 1] 1 0 = 1 := by decide
  have c11 : category_count [0, 1] [0, 1] 1 1 = 1 := by decide
  have i00 : category_count_intended [0, 1] [0, 1] 0 0 = 1 := by decide
  have i01 : category_count_intended [0, 1] [0, 1] 0 1 = 0 := by decide
  have i10 : category_count_intended [0, 1] [0, 1] 1 0 = 0 := by decide
  have i11 : category_count_intended [0, 1] [0, 1] 1 1 = 1 := by decide
  have b0 : branch_count [0, 1] 0 = 1 := by decide
  have b1 : branch_count [0, 1] 1 = 1 := by decide
  constructor
  · rw [information_gain_entropy, hr]
    simp only [List.map_cons, List.map_nil, List.sum_cons, List.sum_nil, sanitized_plogp,
      c00, c01, c10, c11, b0, b1, List.length_cons, List.length_nil]
    norm_num [l2, l1]
  · rw [claimed_gain_formula, hr]
    simp only [List.map_cons, List.map_nil, List.sum_cons, List.sum_nil,
      i00, i01, i10, i11, b0, b1, List.length_cons, List.length_nil]
    norm_num [l2, l1]

/-- C3: on the first invocation pre_fit sets unique_y to the sorted distinct
target values; every later invocation returns the cached list unchanged, no
matter what target values the later fit supplies, so classes unseen at the
first fit never enter unique_y. -/
theorem pre_fit_first_fit_wins :
    (∀ y : List ℤ, pre_fit none y = some (uniqueSorted y)) ∧
    (∀ u y : List ℤ, pre_fit (some u) y = some u) ∧
    (∀ y : List ℤ, (uniqueSorted y).Sorted (fun a b => a ≤ b) ∧ (uniqueSorted y).Nodup ∧
      ∀ v : ℤ, v ∈ uniqueSorted y ↔ v ∈ y) := by
  exact ⟨fun y => rfl, fun u y => rfl,
    fun y => ⟨uniqueSorted_sorted y, uniqueSorted_nodup y, mem_uniqueSorted y⟩⟩

/-- C6: the ensemble preparation routines are pure functions of their
arguments, the seeded draw stream included, so two invocations on identical
arguments return identical arrays. -/
theorem preparation_deterministic (st st2 : ℕ → ℕ) (fc fc2 : ℕ → List ℕ)
    (data data2 : List (List ℤ)) (T T2 nF nF2 a a2 s s2 : ℕ)
    (h1 : st = st2) (h2 : data = data2) (h3 : a = a2) (h4 : s = s2)
    (h5 : fc = fc2) (h6 : T = T2) (h7 : nF = nF2) :
    bagging_preparation st data a s = bagging_preparation st2 data2 a2 s2 ∧
    random_forest_preparation st fc data T nF a s =
      random_forest_preparation st2 fc2 data2 T2 nF2 a2 s2 := by
  subst h1 h2 h3 h4 h5 h6 h7
  exact ⟨rfl, rfl⟩

/-- Witness for C6 at the concrete reference scenario arguments. -/
theorem preparation_deterministic_witness :
    sample_data = sample_data ∧
    (bagging_preparation seed0_stream sample_data 3 2 =
      bagging_preparation seed0_stream sample_data 3 2 ∧
    random_forest_preparation seed0_stream (fun _ => [1, 2]) sample_data 1 1 3 2 =
      random_forest_preparation seed0_stream (fun _ => [1, 2]) sample_data 1 1 3 2) :=
  ⟨rfl, preparation_deterministic seed0_stream seed0_stream (fun _ => [1, 2]) (fun _ => [1, 2])
    sample_data sample_data 1 1 1 1 3 3 2 2 rfl rfl rfl rfl rfl rfl rfl⟩

/-- C7: bagging_preparation on the 3 x 3 reference dataset with 3 subsets of
size 2 under the seed-0 draw stream returns exactly the array stated by the
spec and asserted by the repository test. -/
theorem bagging_preparation_seed0_scenario :
    bagging_preparation seed0_stream sample_data 3 2 =
      [[[4, 5, 6], [4, 5, 6]], [[1, 2, 3], [7, 8, 9]], [[1, 2, 3], [7, 8, 9]]] := by
  decide

/-- C9: fit raises ShapeError whenever the dataset has fewer than 2
observations or number_of_target reaches the column count, raises
ConfigError whenever the depth is negative and the shape checks pass, and
returns success exactly when every check passes, so no error is silently
downgraded. -/
theorem fit_check_error_policy (observations columns number_of_target : ℕ) (depth : ℤ) :
    ((observations < 2 ∨ columns ≤ number_of_target) →
      fit_check observations columns number_of_target depth = .error .shapeError) ∧
    (2 ≤ observations → number_of_target < columns → depth < 0 →
      fit_check observations columns number_of_target depth = .error .configError) ∧
    (fit_check observations columns number_of_target depth = .ok () ↔
      2 ≤ observations ∧ number_of_target < columns ∧ 0 ≤ depth) := by
  unfold fit_check
  refine ⟨?_, ?_, ?_⟩
  · intro h
    rcases h with h | h
    · rw [if_pos h]
    · by_cases h1 : observations < 2
      · rw [if_pos h1]
      · rw [if_neg h1, if_pos h]
  · intro h1 h2 h3
    rw [if_neg (by omega), if_neg (by omega), if_pos h3]
  · split_ifs with h1 h2 h3 <;> simp <;> omega

/-- C2 (amended): on a fitted classifier whose count table was built by
post_fit from leaf codes and targets of equal length, and for any frozen
unique_y (a refit model included), every probability that
predict_with_probability returns is non-negative; whenever the gathered
count column of the reached leaf sums to zero the probabilities are all
zero without failing, and whenever it has a nonzero sum they sum to 1
across the class axis; a leaf holding zero training rows always falls into
the all-zero case; and when unique_y is the sorted distinct value list of
the training targets (as on any model fitted once) the count column sum
equals the number of training rows in the reached leaf, so the all-zero
case then coincides exactly with an empty leaf. -/
theorem predict_with_probability_simplex (uY y : List ℤ) (leaf : List ℕ)
    (splits : List (ℕ × ℤ)) (x : List ℤ) (hlen : leaf.length = y.length) :
    (∀ q ∈ predict_with_probability ⟨splits, uY, fun c l => post_fit_count y leaf c l⟩ x,
      0 ≤ q) ∧
    ((uY.map (fun c => post_fit_count y leaf c (pre_predict splits x))).sum = 0 →
      ∀ q ∈ predict_with_probability ⟨splits, uY, fun c l => post_fit_count y leaf c l⟩ x,
        q = 0) ∧
    ((uY.map (fun c => post_fit_count y leaf c (pre_predict splits x))).sum ≠ 0 →
      (predict_with_probability ⟨splits, uY, fun c l => post_fit_count y leaf c l⟩ x).sum
        = 1) ∧
    (leaf.countP (fun v => decide (v = pre_predict splits x)) = 0 →
      (uY.map (fun c => post_fit_count y leaf c (pre_predict splits x))).sum = 0) ∧
    (uY = uniqueSorted y →
      (uY.map (fun c => post_fit_count y leaf c (pre_predict splits x))).sum =
        leaf.countP (fun v => decide (v = pre_predict splits x))) := by
  refine ⟨?_, ?_, ?_, ?_, ?_⟩
  · intro q hq
    simp only [predict_with_probability, normalize_row, List.mem_map] at hq
    obtain ⟨k, _, rfl⟩ := hq
    split
    · exact le_refl 0
    · positivity
  · intro h0 q hq
    simp only [predict_with_probability, normalize_row, List.mem_map] at hq
    obtain ⟨k, _, rfl⟩ := hq
    rw [if_pos h0]
  · intro htot
    simp only [predict_with_probability, normalize_row, if_neg htot]
    rw [sum_map_cast_div]
    rw [div_self (by exact_mod_cast htot)]
  · intro h0
    apply List.sum_eq_zero
    intro k hk
    obtain ⟨c, _, rfl⟩ := List.mem_map.mp hk
    have hle : post_fit_count y leaf c (pre_predict splits x) ≤
        leaf.countP (fun v => decide (v = pre_predict splits x)) := by
      rw [post_fit_count_eq, ← countP_zip_fst leaf y
        (fun v => decide (v = pre_predict splits x)) hlen]
      exact List.countP_mono_left (fun p _ hp => by
        simp only [Bool.and_eq_true, decide_eq_true_eq] at hp ⊢
        exact hp.1)
    omega
  · intro huY
    rw [huY]
    exact count_row_total (uniqueSorted y) y leaf (pre_predict splits x)
      (uniqueSorted_nodup y) hlen (fun v hv => (mem_uniqueSorted y v).mpr hv)

/-- Witness for C2 on a depth-0 model with frozen unique_y = [1, 2] whose
reached leaf gathers the nonzero count column (1, 0). -/
theorem predict_with_probability_simplex_witness :
    ([0, 1] : List ℕ).length = ([1, 2] : List ℤ).length ∧
    (([1, 2] : List ℤ).map
      (fun c => post_fit_count [1, 2] [0, 1] c (pre_predict [] []))).sum ≠ 0 ∧
    (predict_with_probability
      ⟨[], [1, 2], fun c l => post_fit_count [1, 2] [0, 1] c l⟩ []).sum = 1 :=
  ⟨rfl, by decide,
    (predict_with_probability_simplex [1, 2] [1, 2] [0, 1] [] [] rfl).2.2.1 (by decide)⟩

/-- C2 counterexample: a classifier refit on targets absent from the frozen
unique_y (first fit saw only class 1, the refit only class 2) reaches a leaf
holding two training rows, yet the returned probabilities of that leaf sum
to 0, not 1, so a non-empty leaf does not guarantee a probability simplex. -/
theorem predict_with_probability_nonempty_leaf_counterexample :
    ¬ (([0, 0] : List ℕ).countP (fun v => decide (v = pre_predict [] [])) = 0 ∨
      (predict_with_probability
        ⟨[], [1], fun c l => post_fit_count [2, 2] [0, 0] c l⟩ []).sum = 1) := by
  have hc : post_fit_count [2, 2] [0, 0] (1 : ℤ) (pre_predict [] []) = 0 := by decide
  have hrow : predict_with_probability
      ⟨[], [1], fun c l => post_fit_count [2, 2] [0, 0] c l⟩ [] = [0] := by
    simp [predict_with_probability, normalize_row, hc]
  intro h
  rcases h with h | h
  · exact absurd h (by decide)
  · rw [hrow] at h
    norm_num at h

/-- C10: the class-and-leaf totals of the count table built by post_fit
count exactly the training rows whose target value occurs in the frozen
unique_y list; rows carrying any other target value are silently excluded
rather than raising an error. -/
theorem post_fit_count_unseen_rows_excluded (y : List ℤ) (leaf : List ℕ) (uY : List ℤ)
    (L : ℕ) (hnd : uY.Nodup) (hlen : leaf.length = y.length)
    (hrange : ∀ v ∈ leaf, v < L) :
    ((List.range L).map (fun l => (uY.map (fun c => post_fit_count y leaf c l)).sum)).sum =
      y.countP (fun v => decide (v ∈ uY)) := by
  have hinner : ∀ l : ℕ,
      (uY.map (fun c => post_fit_count y leaf c l)).sum =
        (leaf.zip y).countP (fun p => decide (p.2 ∈ uY) && decide (p.1 = l)) := by
    intro l
    rw [count_row_sum_eq uY y leaf l hnd]
    exact countP_ext _ _ _ (fun p _ => Bool.and_comm _ _)
  calc ((List.range L).map (fun l => (uY.map (fun c => post_fit_count y leaf c l)).sum)).sum
      = ((List.range L).map (fun l =>
          (leaf.zip y).countP (fun p => decide (p.2 ∈ uY) && decide (p.1 = l)))).sum := by
        exact congrArg List.sum (List.map_congr_left (fun l _ => hinner l))
    _ = (leaf.zip y).countP
          (fun p => decide (p.2 ∈ uY) && decide (p.1 ∈ List.range L)) :=
        countP_class_partition (List.range L) (List.nodup_range L) _ _ Prod.fst
    _ = (leaf.zip y).countP (fun p => decide (p.2 ∈ uY)) :=
        countP_ext _ _ _ (fun p hp => by
          have h1 := (List.of_mem_zip hp).1
          simp [List.mem_range.mpr (hrange _ h1)])
    _ = y.countP (fun v => decide (v ∈ uY)) :=
        countP_zip_snd leaf y (fun v => decide (v ∈ uY)) hlen

/-- Witness for C10: with unique_y frozen to classes 1, 4, 7 a refit on
targets 1 and 5 tallies a single row in the whole count table. -/
theorem post_fit_count_unseen_rows_excluded_witness :
    (([1, 4, 7] : List ℤ).Nodup ∧ ([0, 1] : List ℕ).length = ([1, 5] : List ℤ).length ∧
      ∀ v ∈ ([0, 1] : List ℕ), v < 2) ∧
    ((List.range 2).map (fun l =>
      (([1, 4, 7] : List ℤ).map (fun c => post_fit_count [1, 5] [0, 1] c l)).sum)).sum =
      ([1, 5] : List ℤ).countP (fun v => decide (v ∈ ([1, 4, 7] : List ℤ))) :=
  ⟨by decide, post_fit_count_unseen_rows_excluded [1, 5] [0, 1] [1, 4, 7] 2
    (by decide) rfl (by decide)⟩

theorem predict_with_probability_length (m : FittedTree) (x : List ℤ) :
    (predict_with_probability m x).length = m.unique_y.length := by
  simp [predict_with_probability, normalize_row]

theorem ensemble_predict_length (E : FittedEnsemble) (x : List ℤ) :
    (ensemble_predict E x).length = E.unique_y.length := by
  simp [ensemble_predict]

theorem nanmean_singleton (v : ℚ) : nanmean [some v] = some v := by
  simp [nanmean]

theorem ensemble_predict_singleton (S : List (List ℤ)) (depth : ℕ) (x : List ℤ) :
    ensemble_predict (ensemble_fit [S] depth) x =
      (predict_with_probability (classifier_fit S depth) x).map some := by
  have huy : uniqueSorted (([S] : List (List (List ℤ))).flatMap target_column) =
      uniqueSorted (target_column S) := by
    simp
  have hcf : classifier_fit S depth =
      fit_tree (uniqueSorted (target_column S)) depth S := rfl
  show (List.range (ensemble_fit [S] depth).unique_y.length).map (fun c =>
      nanmean ((ensemble_fit [S] depth).trees.map
        (fun t => some ((predict_with_probability t x).getD c 0)))) = _
  have htrees : (ensemble_fit [S] depth).trees =
      [fit_tree (uniqueSorted (target_column S)) depth S] := by
    show ([S].map (fit_tree (uniqueSorted ([S].flatMap target_column)) depth)) = _
    rw [huy]
    rfl
  have huy2 : (ensemble_fit [S] depth).unique_y = uniqueSorted (target_column S) := huy
  rw [htrees, huy2, hcf]
  set row := predict_with_probability (fit_tree (uniqueSorted (target_column S)) depth S) x
    with hrowdef
  have hlen : row.length = (uniqueSorted (target_column S)).length :=
    predict_with_probability_length _ _
  calc (List.range (uniqueSorted (target_column S)).length).map
        (fun c => nanmean [some (row.getD c 0)])
      = (List.range (uniqueSorted (target_column S)).length).map
        (fun c => some (row.getD c 0)) := List.map_congr_left (fun c _ => nanmean_singleton _)
    _ = (List.range row.length).map (fun c => some (row.getD c 0)) := by rw [hlen]
    _ = ((List.range row.length).map (fun c => row.getD c 0)).map some := by
        rw [List.map_map]
        rfl
    _ = row.map some := by rw [map_getD_range]

/-- C4 counterexample: on the 3 x 3 reference dataset a BaggingClassifier
with number_of_subset = 1, subset_size = 2 and the seed-0 stream trains its
single tree on the bootstrap subset (rows 1 and 1), whose only class is 4,
so its probability output carries one class entry, while the
DecisionTreeClassifier of the same depth fitted on the raw dataset carries
the three classes 1, 4, 7; the probability outputs on the sample (2, 3)
therefore differ. -/
theorem bagging_size_one_counterexample :
    bagging_predict seed0_stream sample_data 1 2 3 [2, 3] ≠
      (predict_with_probability (classifier_fit sample_data 3) [2, 3]).map some := by
  intro h
  have hlen := congrArg List.length h
  rw [List.length_map, predict_with_probability_length] at hlen
  have h1 : (bagging_predict seed0_stream sample_data 1 2 3 [2, 3]).length = 1 := by
    show (ensemble_predict (bagging_fit seed0_stream sample_data 1 2 3) [2, 3]).length = 1
    rw [ensemble_predict_length]
    have hc : uniqueSorted
        ((bagging_preparation seed0_stream sample_data 1 2).flatMap target_column) = [4] := by
      decide
    show (uniqueSorted
      ((bagging_preparation seed0_stream sample_data 1 2).flatMap target_column)).length = 1
    rw [hc]
    rfl
  have h2 : (classifier_fit sample_data 3).unique_y.length = 3 := by
    have hc : uniqueSorted (target_column sample_data) = [1, 4, 7] := by decide
    show (uniqueSorted (target_column sample_data)).length = 3
    rw [hc]
    rfl
  rw [h1, h2] at hlen
  exact absurd hlen (by decide)

theorem ensemble_predict_first_subset (P : List (List (List ℤ))) (depth : ℕ) (x : List ℤ)
    (hP : P = [] ∨ P = [P.getD 0 []]) :
    ensemble_predict (ensemble_fit P depth) x =
      (predict_with_probability (classifier_fit (P.getD 0 []) depth) x).map some := by
  rcases hP with h | h
  · rw [h]
    rfl
  · set S := P.getD 0 [] with hS
    rw [h]
    exact ensemble_predict_singleton S depth x

/-- C4 (amended): an ensemble classifier with number_of_subset = 1 returns
exactly the probability output of the single DecisionTreeClassifier of the
same depth and impurity fitted on that wrapper's own prepared training set,
bagging_preparation(dataset, 1, subset_size, seed) for the
BaggingClassifier and random_forest_preparation(dataset, number_of_target,
number_of_chosen_feature, 1, subset_size, seed) for the
RandomForestClassifier, rather than on the raw dataset: aggregation over
the singleton ensemble axis is the identity. -/
theorem size_one_ensemble_matches_tree_on_prepared_data :
    (∀ (stream : ℕ → ℕ) (data : List (List ℤ)) (s depth : ℕ) (x : List ℤ),
      bagging_predict stream data 1 s depth x =
        (predict_with_probability
          (classifier_fit ((bagging_preparation stream data 1 s).getD 0 []) depth)
          x).map some) ∧
    (∀ (rs : ℕ → ℕ) (fc : ℕ → List ℕ) (data : List (List ℤ)) (T nF s depth : ℕ)
      (x : List ℤ),
      random_forest_predict rs fc data T nF 1 s depth x =
        (predict_with_probability
          (classifier_fit
            (((random_forest_preparation rs fc data T nF 1 s).toOption.getD []).getD 0 [])
            depth) x).map some) := by
  have h1 : List.range 1 = [0] := by decide
  constructor
  · intro stream data s depth x
    show ensemble_predict (ensemble_fit (bagging_preparation stream data 1 s) depth) x = _
    apply ensemble_predict_first_subset
    right
    unfold bagging_preparation
    rw [h1]
    rfl
  · intro rs fc data T nF s depth x
    show ensemble_predict (ensemble_fit
      ((random_forest_preparation rs fc data T nF 1 s).toOption.getD []) depth) x = _
    apply ensemble_predict_first_subset
    unfold random_forest_preparation
    split_ifs with hc
    · left
      rfl
    · right
      rw [h1]
      rfl

/-- C5: the ensemble classifiers return exactly the nanmean of the
per-member probability arrays across the leading ensemble axis, and since
every member probability is a sanitized finite value (never NaN), the
result equals the plain arithmetic mean of the member probabilities with
the ensemble axis removed; both BaggingClassifier and
RandomForestClassifier delegate to this aggregation. -/
theorem ensemble_predict_is_nanmean :
    (∀ (stream : ℕ → ℕ) (data : List (List ℤ)) (a s depth : ℕ) (x : List ℤ),
      bagging_predict stream data a s depth x =
        ensemble_predict (bagging_fit stream data a s depth) x) ∧
    (∀ (rs : ℕ → ℕ) (fc : ℕ → List ℕ) (data : List (List ℤ))
      (T nF a s depth : ℕ) (x : List ℤ),
      random_forest_predict rs fc data T nF a s depth x =
        ensemble_predict (ensemble_fit
          ((random_forest_preparation rs fc data T nF a s).toOption.getD []) depth) x) ∧
    (∀ (E : FittedEnsemble) (x : List ℤ),
      ensemble_predict E x = (List.range E.unique_y.length).map (fun c =>
        nanmean (E.trees.map (fun t => some ((predict_with_probability t x).getD c 0))))) ∧
    (∀ (E : FittedEnsemble) (x : List ℤ),
      ensemble_predict E x = (List.range E.unique_y.length).map (fun c =>
        if E.trees.length = 0 then none
        else some ((E.trees.map (fun t => (predict_with_probability t x).getD c 0)).sum /
          (E.trees.length : ℚ)))) := by
  refine ⟨fun _ _ _ _ _ _ => rfl, fun _ _ _ _ _ _ _ _ _ => rfl, fun E x => rfl, fun E x => ?_⟩
  unfold ensemble_predict
  apply List.map_congr_left
  intro c _
  have hm : E.trees.map (fun t => some ((predict_with_probability t x).getD c 0)) =
      (E.trees.map (fun t => (predict_with_probability t x).getD c 0)).map some := by
    rw [List.map_map]
    rfl
  rw [hm, nanmean_map_some, List.length_map]

theorem pre_predict_fold_bound (x : List ℤ) (splits : List (ℕ × ℤ)) (acc : ℕ) :
    splits.foldl (fun code s => 2 * code + branch_of x s) acc <
      (acc + 1) * 2 ^ splits.length := by
  induction splits generalizing acc with
  | nil => simp
  | cons s t ih =>
    have hb : branch_of x s ≤ 1 := by
      unfold branch_of
      split <;> omega
    have h1 := ih (2 * acc + branch_of x s)
    have h2 : (2 * acc + branch_of x s + 1) * 2 ^ t.length ≤ (acc + 1) * 2 ^ (t.length + 1) := by
      have h3 : 2 * acc + branch_of x s + 1 ≤ 2 * (acc + 1) := by omega
      calc (2 * acc + branch_of x s + 1) * 2 ^ t.length
          ≤ 2 * (acc + 1) * 2 ^ t.length := Nat.mul_le_mul_right _ h3
        _ = (acc + 1) * 2 ^ (t.length + 1) := by ring
    rw [List.foldl_cons, List.length_cons]
    exact lt_of_lt_of_le h1 h2

/-- C8: every leaf code that pre_predict produces on a tree fitted with
branch arity 2 and depth D lies below 2 to the power D (and at or above 0,
being a natural number): the split record holds one split per level and
each level contributes a binary branch choice to the mixed-radix code. -/
theorem pre_predict_leaf_code_range (uY : List ℤ) (depth : ℕ) (data : List (List ℤ))
    (x : List ℤ) :
    pre_predict ((fit_tree uY depth data).splits) x < 2 ^ depth := by
  have hlen : (fit_tree uY depth data).splits.length = depth := by
    simp [fit_tree]
  have h := pre_predict_fold_bound x ((fit_tree uY depth data).splits) 0
  rw [hlen] at h
  simpa [pre_predict] using h

/-- Witness for C9 at a dataset with a single observation. -/
theorem fit_check_error_policy_witness :
    (1 < 2 ∨ 3 ≤ 1) ∧ fit_check 1 3 1 0 = Except.error FitError.shapeError :=
  ⟨Or.inl (by decide), (fit_check_error_policy 1 3 1 0).1 (Or.inl (by decide))⟩

end Hoisaai
